import Mathlib

/-!
Verification of the `pg_meritrank` core against its specification.

The repository exposes (src/src/graph.rs, src/src/lib.rs) a PostgreSQL
extension around a MeritRank engine.  The engine itself lives in
`src/lib_graph/{node,edge,walk,graph,storage,rank}.rs`, which are declared
in `src/lib_graph/mod.rs` but are not present in the source tree; where a
definition below depends on one of those missing files it is modelled from
the specification and its doc comment says so.  Everything else is a direct
shallow embedding of the Rust source:

  * `NodeId` variants come from the `Display` impl in
    `src/lib_graph/display.rs` (Int, UInt, None).
  * `MeritRankError` comes from `src/lib_graph/errors.rs`.
  * `GraphManipulationError` comes from `src/error.rs` (only the variants
    the claims exercise are modelled; `src/lib.rs` duplicates the same
    shape under the name `GraphError`, with `NodeNotFoundError` mirroring
    `NodeNotFound`, so one type models both).
  * `GraphSingleton`, `meritrank_add`, `meritrank_calculate`,
    `meritrank_delete`, `meritrank_clear` come from `src/graph.rs`;
    the global `GRAPH` mutex becomes explicit state passing and the
    mutex-poisoning failure arm (never reachable in a single-threaded
    model) is omitted.
  * `calculate_ratings` comes from `src/lib.rs`; its `.unwrap()` calls are
    modelled by an `Option` wrapper where `none` marks the panic.

Edge weights (`f64` in Rust) are modelled as `Rat`; the claims under
scrutiny involve only exact arithmetic (sums of walk-count fractions), so
no floating-point rounding behaviour is load-bearing.  The stochastic
sampler is modelled as an explicit function parameter `sampler`: one call
`sampler g ego i` yields the tail of the `i`-th fresh walk for `ego`, which
the storage records as `ego :: sampler g ego i` (spec 3: a Walk starts at
the ego node).
-/

/-- NodeId, from the `Display` impl in `src/lib_graph/display.rs`:
variants `Int`, `UInt` and the sentinel `None`.  The defining file
`src/lib_graph/node.rs` is not in the tree; the spec (§3) requires a
bounded-integer id with a distinguished absent sentinel, equality being
identity on the underlying integer. -/
inductive NodeId where
  | Int : Int → NodeId
  | UInt : Nat → NodeId
  | None : NodeId
deriving DecidableEq, Repr

/-- Errors of the MeritRank engine, from `src/lib_graph/errors.rs`. -/
inductive MeritRankError where
  | NodeDoesNotExist
  | SelfReferenceNotAllowed
  | RandomChoiceError
  | NoPathExists
  | NodeIdParseError
  | InvalidNode
deriving DecidableEq, Repr

/-- Errors of the extension layer, from `src/error.rs` (the variants the
claims exercise).  `MeritRankFailure` is the `#[from] MeritRankError`
transparent wrapper. -/
inductive GraphManipulationError where
  | EdgeCreationFailure : String → GraphManipulationError
  | NodeNotFound : String → GraphManipulationError
  | MeritRankFailure : MeritRankError → GraphManipulationError
  | MutexLockFailure : String → GraphManipulationError
deriving DecidableEq, Repr

/-- Edge weights: `f64` in Rust, modelled as `Rat`. -/
abbrev Weight := Rat

/-- Modelled from the spec: `src/lib_graph/graph.rs` (the `MyGraph` type)
is not under `src/`.  Spec §3: a Graph is the node set plus directed
weighted edges, at most one edge per ordered pair. -/
structure MyGraph where
  nodes : List NodeId
  edges : List (NodeId × NodeId × Weight)
deriving DecidableEq, Repr

/-- Modelled from the spec: `MyGraph::new` — the empty graph. -/
def MyGraph.new : MyGraph := ⟨[], []⟩

/-- Modelled from the spec: `MyGraph::node_count`. -/
def MyGraph.node_count (g : MyGraph) : Nat := g.nodes.length

/-- Modelled from the spec: `MyGraph::add_node` — idempotent, always
succeeds (spec §4.1). -/
def MyGraph.add_node (g : MyGraph) (id : NodeId) : MyGraph :=
  if id ∈ g.nodes then g else ⟨g.nodes ++ [id], g.edges⟩

/-- Modelled from the spec: `MyGraph::add_edge` — fails with
`SelfReferenceNotAllowed` when `source == target`, otherwise inserts or
overwrites the edge weight (spec §4.1, §3: overwriting, no parallel
edges). -/
def MyGraph.add_edge (g : MyGraph) (source target : NodeId) (weight : Weight) :
    Except MeritRankError MyGraph :=
  if source = target then
    .error .SelfReferenceNotAllowed
  else
    .ok ⟨g.nodes,
      (source, target, weight) ::
        g.edges.filter (fun e => ¬(e.1 = source ∧ e.2.1 = target))⟩

/-- Modelled from the spec: `MyGraph::remove_edge` — removes the edge if
present, no error if absent (spec §4.1). -/
def MyGraph.remove_edge (g : MyGraph) (source target : NodeId) : MyGraph :=
  ⟨g.nodes, g.edges.filter (fun e => ¬(e.1 = source ∧ e.2.1 = target))⟩

/-- Modelled from the spec: `MyGraph::clear` — drops all nodes and edges
(spec §4.1). -/
def MyGraph.clear (_g : MyGraph) : MyGraph := ⟨[], []⟩

/-- A sampled walk: an ordered sequence of NodeIds (spec §3).  The file
`src/lib_graph/walk.rs` is not under `src/`. -/
abbrev RandomWalk := List NodeId

/-- A walk sampler: given the graph, the ego and a fresh-walk index,
produce the tail of one stochastic walk.  This parameter stands for the
random source of `src/lib_graph/rank.rs`. -/
abbrev Sampler := MyGraph → NodeId → Nat → RandomWalk

/-- Modelled from the spec: the MeritRank calculator
(`src/lib_graph/rank.rs`, not under `src/`) owns one Graph and one
WalkStorage (spec §3, §4.4); the storage is a per-ego association list of
cached walks. -/
structure MeritRank where
  graph : MyGraph
  walks : List (NodeId × List RandomWalk)
deriving DecidableEq, Repr

/-- Walk-storage lookup: the currently valid walks cached for `ego`. -/
def getWalks : List (NodeId × List RandomWalk) → NodeId → List RandomWalk
  | [], _ => []
  | (k, w) :: rest, ego => if k = ego then w else getWalks rest ego

/-- Walk-storage update: replace (or create) the cache entry for `ego`. -/
def setWalks : List (NodeId × List RandomWalk) → NodeId → List RandomWalk →
    List (NodeId × List RandomWalk)
  | [], ego, v => [(ego, v)]
  | (k, w) :: rest, ego, v =>
    if k = ego then (k, v) :: rest else (k, w) :: setWalks rest ego v

/-- The walks cached for `ego` in a MeritRank instance. -/
def MeritRank.walksFor (mr : MeritRank) (ego : NodeId) : List RandomWalk :=
  getWalks mr.walks ego

/-- Modelled from the spec: `MeritRank::new(graph)` takes a Graph snapshot
and starts with an empty walk cache; construction does not fail (spec §4.4
and the §6 interface table list no failure for `construct`). -/
def MeritRank.new (g : MyGraph) : Except MeritRankError MeritRank :=
  .ok ⟨g, []⟩

/-- Modelled from the spec: `MeritRank::calculate(ego, iterations)` —
fails with `NodeDoesNotExist` if `ego` is absent; otherwise tops the cache
up to `iterations` walks for `ego`, sampling only the deficit; an equal or
smaller request with no intervening mutation is a no-op (spec §4.4). -/
def MeritRank.calculate (sampler : Sampler) (mr : MeritRank) (ego : NodeId)
    (iterations : Nat) : Except MeritRankError MeritRank :=
  if ego ∈ mr.graph.nodes then
    if iterations ≤ (mr.walksFor ego).length then
      .ok mr
    else
      .ok ⟨mr.graph,
        setWalks mr.walks ego
          (mr.walksFor ego ++
            (List.range (iterations - (mr.walksFor ego).length)).map
              (fun i => ego :: sampler mr.graph ego
                ((mr.walksFor ego).length + i)))⟩
  else
    .error .NodeDoesNotExist

/-- Number of times `v` is visited across the cached walks. -/
def hitCount (walks : List RandomWalk) (v : NodeId) : Nat :=
  walks.flatten.count v

/-- Total number of node visits across the cached walks. -/
def totalHits (walks : List RandomWalk) : Nat :=
  walks.flatten.length

/-- The nodes visited by at least one cached walk, without duplicates. -/
def rankNodes (walks : List RandomWalk) : List NodeId :=
  walks.flatten.dedup

/-- A collision-free integer key on NodeId, used only as the deterministic
ascending tie-break of the score ordering (spec §4.4). -/
def NodeId.key : NodeId → ℤ
  | .None => 0
  | .Int v => 3 * v + 1
  | .UInt n => 3 * (n : ℤ) + 2

/-- The score order of spec §4.4: descending score, ties broken by
ascending NodeId key. -/
def rankLe (a b : NodeId × Rat) : Prop :=
  b.2 < a.2 ∨ (a.2 = b.2 ∧ a.1.key ≤ b.1.key)

instance : DecidableRel rankLe := fun a b => by
  unfold rankLe; infer_instance

/-- Truncate to `limit` entries when a limit is provided (spec §4.4). -/
def takeOpt (limit : Option Nat) (l : List (NodeId × Rat)) :
    List (NodeId × Rat) :=
  match limit with
  | none => l
  | some n => l.take n

/-- The rank aggregation of spec §4.4: each visited node scored by its
visitation frequency across the cached walks, normalized by the total
visit count so the scores sum to at most 1. -/
def rankScores (walks : List RandomWalk) : List (NodeId × Rat) :=
  (rankNodes walks).map
    (fun v => (v, (hitCount walks v : Rat) / (totalHits walks : Rat)))

/-- Modelled from the spec: `MeritRank::get_ranks(ego, limit)` — fails
with `NodeDoesNotExist` if `ego` is absent and with `NoPathExists` if zero
valid walks exist for `ego`; otherwise returns the normalized visitation
scores, ordered by descending score with ties by ascending NodeId,
truncated to `limit` (spec §4.4). -/
def MeritRank.get_ranks (mr : MeritRank) (ego : NodeId) (limit : Option Nat) :
    Except MeritRankError (List (NodeId × Rat)) :=
  if ego ∈ mr.graph.nodes then
    if mr.walksFor ego = [] then
      .error .NoPathExists
    else
      .ok (takeOpt limit ((rankScores (mr.walksFor ego)).insertionSort rankLe))
  else
    .error .NodeDoesNotExist

/-- Modelled from the spec: an operation that requires a concrete target
node rejects the sentinel with `InvalidNode` rather than proceeding (spec
§3); `src/lib_graph/rank.rs`, where such score queries live, is not under
`src/`.  The score of `target` from the perspective of `ego`. -/
def MeritRank.get_node_score (mr : MeritRank) (ego target : NodeId) :
    Except MeritRankError Rat :=
  if ego = NodeId.None ∨ target = NodeId.None then
    .error .InvalidNode
  else
    match mr.get_ranks ego none with
    | .error e => .error e
    | .ok scores =>
      match scores.find? (fun p => p.1 = target) with
      | some p => .ok p.2
      | Option.none => .ok 0

/-- Name-map lookup, modelling `HashMap<String, NodeId>::get` on the
`node_names` field of `GraphSingleton` (src/graph.rs). -/
def lookupName : List (String × NodeId) → String → Option NodeId
  | [], _ => Option.none
  | (k, v) :: rest, name => if k = name then some v else lookupName rest name

/-- Model of `GraphSingleton` (src/graph.rs lines 30-33): the graph plus the
name-to-id map.  The global `GRAPH` mutex becomes explicit state passing;
`src/lib.rs` lines 128-131 duplicate the same structure. -/
structure GraphSingleton where
  graph : MyGraph
  node_names : List (String × NodeId)
deriving DecidableEq, Repr

/-- Model of `GraphSingleton::new` (src/graph.rs lines 38-43). -/
def GraphSingleton.new : GraphSingleton := ⟨MyGraph.new, []⟩

/-- Model of `GraphSingleton::get_node_id` (src/graph.rs lines 97-107): return the
registered id for `node_name`, or register the name under the fresh id
`UInt (node_count + 1)`, add that node to the graph, and return it.
Returns the id together with the updated singleton state (the Rust method
mutates `self` behind the mutex and never fails once the lock is held). -/
def GraphSingleton.get_node_id (s : GraphSingleton) (node_name : String) :
    NodeId × GraphSingleton :=
  match lookupName s.node_names node_name with
  | some node_id => (node_id, s)
  | Option.none =>
    let node_id := NodeId.UInt (s.graph.node_count + 1)
    (node_id, ⟨s.graph.add_node node_id, (node_name, node_id) :: s.node_names⟩)

/-- Model of `GraphSingleton::add_node` (src/graph.rs lines 86-94): locks the
mutex and delegates to `get_node_id`. -/
def GraphSingleton.add_node (s : GraphSingleton) (node_name : String) :
    NodeId × GraphSingleton :=
  s.get_node_id node_name

/-- Model of `GraphSingleton::node_name_to_id` (src/graph.rs lines 110-127): a
read-only map lookup that fails with `NodeNotFound` when the name is not
registered. -/
def GraphSingleton.node_name_to_id (s : GraphSingleton) (node_name : String) :
    Except GraphManipulationError NodeId :=
  match lookupName s.node_names node_name with
  | some node_id => .ok node_id
  | Option.none => .error (.NodeNotFound ("Node not found: " ++ node_name))

/-- Model of `GraphSingleton::node_id_to_name` (src/graph.rs lines 130-148):
reverse lookup over the name map. -/
def GraphSingleton.node_id_to_name (s : GraphSingleton) (node_id : NodeId) :
    Except GraphManipulationError String :=
  match s.node_names.find? (fun p => p.2 = node_id) with
  | some p => .ok p.1
  | Option.none => .error (.NodeNotFound "Node not found")

/-- Model of `GraphSingleton::get_rank` (src/graph.rs lines 46-57): build a FRESH
`MeritRank` from a clone of the current graph.  Note that the new
instance's walk cache starts empty — no walks survive from one
`get_rank` call to the next. -/
def GraphSingleton.get_rank (s : GraphSingleton) :
    Except GraphManipulationError MeritRank :=
  match MeritRank.new s.graph with
  | .ok mr => .ok mr
  | .error e => .error (.MeritRankFailure e)

/-- Model of `GraphSingleton::clear_graph` (src/graph.rs lines 150-162): clear the
graph and the name map. -/
def GraphSingleton.clear_graph (s : GraphSingleton) :
    Except GraphManipulationError Unit × GraphSingleton :=
  (.ok (), ⟨s.graph.clear, []⟩)

/-- Model of `meritrank_add` (src/graph.rs lines 165-186): register both names
(creating nodes as needed), then insert the edge; a failing `add_edge`
leaves the node registrations in place but adds no edge.  Returns the
result together with the final singleton state. -/
def meritrank_add (s : GraphSingleton) (subject object : String)
    (amount : Weight) : Except GraphManipulationError Unit × GraphSingleton :=
  let r1 := s.get_node_id subject
  let r2 := r1.2.get_node_id object
  match r2.2.graph.add_edge r1.1 r2.1 amount with
  | .error e => (.error (.MeritRankFailure e), r2.2)
  | .ok g => (.ok (), ⟨g, r2.2.node_names⟩)

/-- Model of `meritrank_delete` (src/graph.rs lines 221-238): register both names
(creating nodes as needed), then remove the edge; `remove_edge` never
fails, so the call always returns Ok. -/
def meritrank_delete (s : GraphSingleton) (subject object : String) :
    Except GraphManipulationError Unit × GraphSingleton :=
  let r1 := s.get_node_id subject
  let r2 := r1.2.get_node_id object
  (.ok (), ⟨r2.2.graph.remove_edge r1.1 r2.1, r2.2.node_names⟩)

/-- Model of `meritrank_clear` (src/graph.rs lines 240-243). -/
def meritrank_clear (s : GraphSingleton) :
    Except GraphManipulationError Unit × GraphSingleton :=
  s.clear_graph

/-- Model of `meritrank_calculate` (src/graph.rs lines 188-219): resolve the
subject, build a fresh `MeritRank` from the current graph via `get_rank`,
run `calculate`, read `get_ranks(subject, None)`, and look up the object's
score.  The function only reads the singleton state — it returns no
updated state because the Rust code performs no mutation of the global
graph or of any persistent walk cache. -/
def meritrank_calculate (sampler : Sampler) (s : GraphSingleton)
    (subject object : String) (iterations : Nat) :
    Except GraphManipulationError Rat :=
  match s.node_name_to_id subject with
  | .error e => .error e
  | .ok subject_id =>
  match s.get_rank with
  | .error e => .error e
  | .ok merit_rank =>
  match merit_rank.calculate sampler subject_id iterations with
  | .error e => .error (.MeritRankFailure e)
  | .ok mr1 =>
  match mr1.get_ranks subject_id Option.none with
  | .error e => .error (.MeritRankFailure e)
  | .ok peer_scores =>
  match s.node_name_to_id object with
  | .error e => .error e
  | .ok object_id =>
  match peer_scores.find? (fun p => p.1 = object_id) with
  | some p => .ok p.2
  | Option.none => .error (.NodeNotFound ("Rank not found for node: " ++ object))

/-- The number of fresh walks one `meritrank_calculate(subject, _, n)`
invocation samples: the `MeritRank` it operates on comes from `get_rank`
(src/graph.rs line 198), so the deficit `calculate` must sample is `n`
minus the walks already cached in that fresh instance. -/
def meritrank_calculate_resampled (s : GraphSingleton) (subject : String)
    (iterations : Nat) : Nat :=
  match s.node_name_to_id subject with
  | .error _ => 0
  | .ok subject_id =>
  match s.get_rank with
  | .error _ => 0
  | .ok merit_rank =>
    if subject_id ∈ merit_rank.graph.nodes then
      iterations - (merit_rank.walksFor subject_id).length
    else 0

/-- The (name, score) rows returned by `calculate_ratings`
(`NodeRating` in src/lib.rs). -/
abbrev NodeRating := String × Rat

/-- Model of `calculate_ratings` (src/lib.rs lines 640-686).  The Rust function:
resolves the ego with `node_name_to_id(ego).unwrap()` — a panic (process
abort) when the name is not registered, modelled as `Option.none`; returns
an empty vector if `get_rank` fails; ignores a `calculate` error (printing
it) and keeps the unchanged instance; substitutes an empty map if
`get_ranks` fails; resolves each node name with
`node_id_to_name(_).unwrap()` — again a panic, `Option.none`, on failure.
The `steps` argument is accepted but never used: `calculate` is invoked
with the literal 10000. -/
def calculate_ratings (sampler : Sampler) (s : GraphSingleton) (ego : String)
    (steps : Int) (limit : Option Nat) : Option (List NodeRating) :=
  match s.node_name_to_id ego with
  | .error _ => Option.none
  | .ok ego_id =>
  match s.get_rank with
  | .error _ => some []
  | .ok merit_rank =>
  let mr1 := match merit_rank.calculate sampler ego_id 10000 with
    | .ok m => m
    | .error _ => merit_rank
  let ranks := match mr1.get_ranks ego_id limit with
    | .ok r => r
    | .error _ => []
  ranks.mapM (fun p =>
    match s.node_id_to_name p.1 with
    | .ok name => some (name, p.2)
    | .error _ => Option.none)

/-! ### Helper lemmas shared by the claim theorems -/

theorem lookupName_cons (k : String) (v : NodeId)
    (rest : List (String × NodeId)) (name : String) :
    lookupName ((k, v) :: rest) name =
      if k = name then some v else lookupName rest name := rfl

/-- A registered name: `get_node_id` returns the stored id and leaves the
state untouched (the `Some` branch of src/graph.rs lines 98-99). -/
theorem get_node_id_found (s : GraphSingleton) (name : String) (id : NodeId)
    (h : lookupName s.node_names name = some id) :
    s.get_node_id name = (id, s) := by
  unfold GraphSingleton.get_node_id
  rw [h]

/-- A fresh name: `get_node_id` registers it under `UInt (node_count + 1)`
(the `None` branch of src/graph.rs lines 100-106). -/
theorem get_node_id_fresh (s : GraphSingleton) (name : String)
    (h : lookupName s.node_names name = Option.none) :
    s.get_node_id name =
      (NodeId.UInt (s.graph.node_count + 1),
       ⟨s.graph.add_node (NodeId.UInt (s.graph.node_count + 1)),
        (name, NodeId.UInt (s.graph.node_count + 1)) :: s.node_names⟩) := by
  unfold GraphSingleton.get_node_id
  rw [h]

/-- After any `get_node_id` call the name is registered, under the id the
call returned. -/
theorem get_node_id_registers (s : GraphSingleton) (name : String) :
    lookupName (s.get_node_id name).2.node_names name =
      some (s.get_node_id name).1 := by
  unfold GraphSingleton.get_node_id
  cases h : lookupName s.node_names name with
  | some v => simpa using h
  | none => simp [lookupName_cons]

/-- The call `get_node_id` never touches the edge set. -/
theorem get_node_id_edges (s : GraphSingleton) (name : String) :
    (s.get_node_id name).2.graph.edges = s.graph.edges := by
  unfold GraphSingleton.get_node_id
  cases h : lookupName s.node_names name with
  | some v => rfl
  | none =>
    simp only
    unfold MyGraph.add_node
    split <;> rfl

theorem getWalks_setWalks (ws : List (NodeId × List RandomWalk))
    (ego : NodeId) (v : List RandomWalk) :
    getWalks (setWalks ws ego v) ego = v := by
  induction ws with
  | nil => simp [setWalks, getWalks]
  | cons head rest ih =>
    obtain ⟨k, w⟩ := head
    by_cases h : k = ego <;> simp [setWalks, getWalks, h, ih]

/-- What a successful `calculate` guarantees: the ego was present, the
graph is untouched, and the cache now holds at least `iterations` walks
for the ego. -/
theorem calculate_ok_facts (sampler : Sampler) (mr mr1 : MeritRank)
    (ego : NodeId) (iterations : Nat)
    (h : mr.calculate sampler ego iterations = .ok mr1) :
    ego ∈ mr.graph.nodes ∧ mr1.graph = mr.graph ∧
      iterations ≤ (mr1.walksFor ego).length := by
  unfold MeritRank.calculate at h
  split at h
  case isTrue hm =>
    split at h
    case isTrue hle =>
      cases h
      exact ⟨hm, rfl, hle⟩
    case isFalse hle =>
      cases h
      refine ⟨hm, rfl, ?_⟩
      unfold MeritRank.walksFor
      rw [getWalks_setWalks]
      simp only [List.length_append, List.length_map, List.length_range]
      omega
  case isFalse hm => cases h

theorem sum_map_div (l : List NodeId) (f : NodeId → Rat) (c : Rat) :
    (l.map (fun v => f v / c)).sum = (l.map f).sum / c := by
  induction l with
  | nil => simp
  | cons a t ih => simp [ih, add_div]

/-- The aggregated visit counts over the deduplicated node list recover
the total visit count. -/
theorem sum_hitCount (walks : List RandomWalk) :
    ((rankNodes walks).map (fun v => hitCount walks v)).sum =
      totalHits walks := by
  unfold rankNodes hitCount totalHits
  exact List.sum_map_count_dedup_eq_length _

/-- The normalized scores of §4.4 sum to at most 1: each node's score is
its visit count over the total visit count, so the whole list sums to
exactly 1 when any visit exists and to 0 otherwise. -/
theorem rankScores_sum_le_one (walks : List RandomWalk) :
    ((rankScores walks).map Prod.snd).sum ≤ 1 := by
  unfold rankScores
  rw [List.map_map]
  have hcomp : (Prod.snd ∘ fun v =>
      (v, (hitCount walks v : Rat) / (totalHits walks : Rat)))
      = fun v => (hitCount walks v : Rat) / (totalHits walks : Rat) := rfl
  rw [hcomp, sum_map_div]
  have hcast : ((rankNodes walks).map
      (fun v => (hitCount walks v : Rat))).sum = (totalHits walks : Rat) := by
    have h1 := sum_hitCount walks
    have h2 : (((rankNodes walks).map (fun v => hitCount walks v)).sum : Rat)
        = (totalHits walks : Rat) := by rw [h1]
    rw [← h2, Nat.cast_list_sum, List.map_map]
    rfl
  rw [hcast]
  rcases eq_or_ne (totalHits walks : Rat) 0 with h0 | h0
  · rw [h0]
    simp
  · rw [div_self h0]

/-- Any successful `get_ranks(ego, None)` reply has scores summing to at
most 1: the reply is a permutation (by sorting) of the normalized
visitation scores. -/
theorem get_ranks_sum_le_one (mr : MeritRank) (ego : NodeId)
    (scores : List (NodeId × Rat))
    (h : mr.get_ranks ego Option.none = .ok scores) :
    (scores.map Prod.snd).sum ≤ 1 := by
  unfold MeritRank.get_ranks at h
  split at h
  case isTrue hm =>
    split at h
    case isTrue hw => cases h
    case isFalse hw =>
      cases h
      have hperm :=
        (List.perm_insertionSort rankLe (rankScores (mr.walksFor ego))).map
          Prod.snd
      calc ((takeOpt Option.none
              ((rankScores (mr.walksFor ego)).insertionSort rankLe)).map
                Prod.snd).sum
          = ((rankScores (mr.walksFor ego)).map Prod.snd).sum :=
            hperm.sum_eq
        _ ≤ 1 := rankScores_sum_le_one (mr.walksFor ego)
  case isFalse hm => cases h

/-! ### Claim theorems -/

/-- C1: for every graph and every ego present in it, after
`calculate(ego, N)` succeeds, the score mapping returned by
`get_ranks(ego, None)` sums over all listed nodes to at most 1 (the
rational model is exact, so the floating tolerance is not needed). -/
theorem c1_ranks_sum_bounded (sampler : Sampler) (mr mr1 : MeritRank)
    (ego : NodeId) (n : Nat) (scores : List (NodeId × Rat))
    (hcalc : mr.calculate sampler ego n = .ok mr1)
    (hranks : mr1.get_ranks ego Option.none = .ok scores) :
    (scores.map Prod.snd).sum ≤ 1 :=
  get_ranks_sum_le_one mr1 ego scores hranks

/-- Concrete sampler for witnesses: every sampled walk stops at the ego
immediately. -/
def sampler0 : Sampler := fun _ _ _ => []

/-- A one-node MeritRank instance with an empty walk cache. -/
def mrEx : MeritRank := ⟨⟨[NodeId.UInt 1], []⟩, []⟩

/-- The instance `mrEx` after `calculate(UInt 1, 2)` under `sampler0`. -/
def mrEx1 : MeritRank :=
  ⟨⟨[NodeId.UInt 1], []⟩, [(NodeId.UInt 1, [[NodeId.UInt 1], [NodeId.UInt 1]])]⟩

theorem c1_ranks_sum_bounded_witness :
    (((takeOpt Option.none
        ((rankScores (mrEx1.walksFor (NodeId.UInt 1))).insertionSort
          rankLe)).map Prod.snd).sum ≤ 1) :=
  c1_ranks_sum_bounded sampler0 mrEx mrEx1 (NodeId.UInt 1) 2 _ rfl rfl

/-- C2: `add_edge(x, x, w)` fails with `SelfReferenceNotAllowed` for
every x and w; consequently `meritrank_add(name, name, w)` returns that
error (wrapped by the `#[from]` conversion) and inserts no edge. -/
theorem c2_self_reference_rejected (s : GraphSingleton) (name : String)
    (w : Weight) :
    (∀ (g : MyGraph) (x : NodeId) (w2 : Weight),
        g.add_edge x x w2 = .error .SelfReferenceNotAllowed) ∧
    (meritrank_add s name name w).1 =
      .error (.MeritRankFailure .SelfReferenceNotAllowed) ∧
    (meritrank_add s name name w).2.graph.edges = s.graph.edges := by
  have hself : ∀ (g : MyGraph) (x : NodeId) (w2 : Weight),
      g.add_edge x x w2 = .error .SelfReferenceNotAllowed := by
    intro g x w2
    unfold MyGraph.add_edge
    rw [if_pos rfl]
  have h2 : (s.get_node_id name).2.get_node_id name
      = ((s.get_node_id name).1, (s.get_node_id name).2) :=
    get_node_id_found _ _ _ (get_node_id_registers s name)
  refine ⟨hself, ?_, ?_⟩ <;>
    simp only [meritrank_add, h2, hself, get_node_id_edges]

/-- C4 (code bug): `calculate_ratings` on an ego name that is not
registered hits `.unwrap()` on the `Err` of `node_name_to_id`
(src/lib.rs line 648) and panics — modelled as `Option.none` — instead of
returning a typed error or an empty result. -/
theorem c4_unregistered_ego_abort :
    calculate_ratings sampler0 GraphSingleton.new "alice" 5 Option.none
      = Option.none := rfl

/-- C6: `add_node`/`get_node_id` is idempotent — once a name is
registered, calling it again returns the same NodeId and the state
(graph, node count, name map) completely unchanged. -/
theorem c6_add_node_idempotent (s s1 : GraphSingleton) (name : String)
    (id : NodeId) (h : s.add_node name = (id, s1)) :
    s1.add_node name = (id, s1) := by
  have h' : s.get_node_id name = (id, s1) := h
  have hr := get_node_id_registers s name
  rw [h'] at hr
  exact get_node_id_found s1 name id hr

/-- The singleton produced by registering "a" in the empty state. -/
def sEx : GraphSingleton :=
  ⟨⟨[NodeId.UInt 1], []⟩, [("a", NodeId.UInt 1)]⟩

theorem c6_add_node_idempotent_witness :
    sEx.add_node "a" = (NodeId.UInt 1, sEx) :=
  c6_add_node_idempotent GraphSingleton.new sEx "a" (NodeId.UInt 1) rfl

/-- C7: the sentinel `NodeId::None` never equals a real id, and an
operation requiring a concrete target node rejects the sentinel with
`InvalidNode`. -/
theorem c7_sentinel_never_real (mr : MeritRank) (ego : NodeId) :
    (∀ v : Int, NodeId.None ≠ NodeId.Int v) ∧
    (∀ v : Nat, NodeId.None ≠ NodeId.UInt v) ∧
    mr.get_node_score ego NodeId.None = .error .InvalidNode := by
  refine ⟨(fun v h => by cases h), (fun v h => by cases h), ?_⟩
  unfold MeritRank.get_node_score
  rw [if_pos (Or.inr rfl)]

/-- C8: after `meritrank_clear()` succeeds every node, edge and cached
walk is gone — zero node count, no edges, empty name map, every
`node_name_to_id` fails with node-not-found, and any MeritRank built from
the cleared state starts with an empty walk cache. -/
theorem c8_clear_drops_everything (s : GraphSingleton) :
    (meritrank_clear s).1 = .ok () ∧
    (meritrank_clear s).2.graph.node_count = 0 ∧
    (meritrank_clear s).2.graph.edges = [] ∧
    (meritrank_clear s).2.node_names = [] ∧
    (∀ name, (meritrank_clear s).2.node_name_to_id name =
        .error (.NodeNotFound ("Node not found: " ++ name))) ∧
    (meritrank_clear s).2.get_rank = .ok ⟨MyGraph.new, []⟩ :=
  ⟨rfl, rfl, rfl, rfl, fun _ => rfl, rfl⟩

/-- C10: the result of `calculate_ratings` does not depend on the `steps`
argument — the implementation always requests 10000 iterations
(src/lib.rs line 660). -/
theorem c10_steps_ignored (sampler : Sampler) (s : GraphSingleton)
    (ego : String) (limit : Option Nat) (s1 s2 : Int) :
    calculate_ratings sampler s ego s1 limit =
      calculate_ratings sampler s ego s2 limit := rfl

/-- Removing an edge never changes the node count. -/
theorem remove_edge_node_count (g : MyGraph) (x y : NodeId) :
    (g.remove_edge x y).node_count = g.node_count := rfl

/-- Registering a fresh name: the node count grows by one, the new node
is appended, and the name map gains the new binding. -/
theorem get_node_id_fresh_count (s : GraphSingleton) (name : String)
    (h : lookupName s.node_names name = Option.none)
    (hfree : NodeId.UInt (s.graph.node_count + 1) ∉ s.graph.nodes) :
    (s.get_node_id name).2.graph.node_count = s.graph.node_count + 1 ∧
    (s.get_node_id name).2.graph.nodes =
      s.graph.nodes ++ [NodeId.UInt (s.graph.node_count + 1)] ∧
    (s.get_node_id name).2.node_names =
      (name, NodeId.UInt (s.graph.node_count + 1)) :: s.node_names := by
  rw [get_node_id_fresh s name h]
  unfold MyGraph.add_node
  rw [if_neg hfree]
  refine ⟨?_, rfl, rfl⟩
  unfold MyGraph.node_count
  simp

/-- C3 (amended): a second `calculate` on the SAME MeritRank instance
with an equal or smaller iterations value and no intervening mutation is
a no-op — the instance is returned unchanged, so `get_ranks` output is
identical after both calls.  (The claim's extension to two successive
`meritrank_calculate` invocations fails: see the counterexample.) -/
theorem c3_second_calculate_noop (sampler : Sampler) (mr mr1 : MeritRank)
    (ego : NodeId) (n1 n2 : Nat) (hle : n2 ≤ n1)
    (h : mr.calculate sampler ego n1 = .ok mr1) :
    mr1.calculate sampler ego n2 = .ok mr1 := by
  obtain ⟨hm, hg, hlen⟩ := calculate_ok_facts sampler mr mr1 ego n1 h
  unfold MeritRank.calculate
  rw [if_pos (by rw [hg]; exact hm), if_pos (le_trans hle hlen)]

theorem c3_second_calculate_noop_witness :
    mrEx1.calculate sampler0 (NodeId.UInt 1) 1 = .ok mrEx1 :=
  c3_second_calculate_noop sampler0 mrEx mrEx1 (NodeId.UInt 1) 2 1
    (by decide) rfl

/-- The singleton state holding nodes "a", "b" and the edge a→b with
weight 1, built through `meritrank_add`. -/
def cexState : GraphSingleton := (meritrank_add GraphSingleton.new "a" "b" 1).2

/-- C3 (counterexample): across two successive invocations of the
exposed `meritrank_calculate`, the second is NOT a cache hit.
`meritrank_calculate` performs no mutation of the singleton state (it
only reads the graph), so the second invocation starts from the same
state `cexState`; but `get_rank` hands it a freshly constructed MeritRank
whose walk cache is empty, so the second invocation samples all 100
requested walks again instead of zero. -/
theorem c3_fresh_instance_resamples :
    cexState.get_rank = .ok ⟨cexState.graph, []⟩ ∧
    meritrank_calculate_resampled cexState "a" 100 = 100 ∧
    (100 : Nat) ≠ 0 :=
  ⟨rfl, rfl, by decide⟩

/-- C5: `remove_edge` succeeds whether or not the edge is present;
`meritrank_delete` on two registered distinct names with no edge between
them returns Ok and leaves the edge set unchanged. -/
theorem c5_delete_absent_edge_ok (s : GraphSingleton) (a b : String)
    (ida idb : NodeId)
    (ha : lookupName s.node_names a = some ida)
    (hb : lookupName s.node_names b = some idb)
    (hne : ida ≠ idb)
    (hedge : ∀ w : Weight, (ida, idb, w) ∉ s.graph.edges) :
    (meritrank_delete s a b).1 = .ok () ∧
    (meritrank_delete s a b).2.graph.edges = s.graph.edges := by
  have h1 := get_node_id_found s a ida ha
  have h2 := get_node_id_found s b idb hb
  refine ⟨rfl, ?_⟩
  simp only [meritrank_delete, h1, h2]
  unfold MyGraph.remove_edge
  simp only
  rw [List.filter_eq_self]
  intro e he
  simp only [decide_not, Bool.not_eq_true', decide_eq_false_iff_not,
    decide_eq_true_eq]
  rintro ⟨h3, h4⟩
  apply hedge e.2.2
  have hee : (ida, idb, e.2.2) = e := by
    rw [← h3, ← h4]
  rw [hee]
  exact he

/-- Two registered nodes and no edges, for the C5 witness. -/
def sEx2 : GraphSingleton :=
  ⟨⟨[NodeId.UInt 1, NodeId.UInt 2], []⟩,
   [("a", NodeId.UInt 1), ("b", NodeId.UInt 2)]⟩

theorem c5_delete_absent_edge_ok_witness :
    (meritrank_delete sEx2 "a" "b").1 = .ok () ∧
    (meritrank_delete sEx2 "a" "b").2.graph.edges = sEx2.graph.edges :=
  c5_delete_absent_edge_ok sEx2 "a" "b" (NodeId.UInt 1) (NodeId.UInt 2)
    rfl rfl (by decide) (fun w => List.not_mem_nil _)

/-- C9: `meritrank_delete` on two distinct unregistered names succeeds
but does not leave the node set unchanged — it registers both names,
growing the node count by two, although it only removes an absent edge.
The freshness hypotheses say the two ids about to be minted are not yet
graph nodes, which holds in every state built through `get_node_id`. -/
theorem c9_delete_registers_names (s : GraphSingleton) (a b : String)
    (hab : a ≠ b)
    (ha : lookupName s.node_names a = Option.none)
    (hb : lookupName s.node_names b = Option.none)
    (h1 : NodeId.UInt (s.graph.node_count + 1) ∉ s.graph.nodes)
    (h2 : NodeId.UInt (s.graph.node_count + 2) ∉ s.graph.nodes) :
    (meritrank_delete s a b).1 = .ok () ∧
    (meritrank_delete s a b).2.graph.node_count = s.graph.node_count + 2 ∧
    (meritrank_delete s a b).2.node_names =
      (b, NodeId.UInt (s.graph.node_count + 2)) ::
        (a, NodeId.UInt (s.graph.node_count + 1)) :: s.node_names := by
  obtain ⟨hc1, hn1, hm1⟩ := get_node_id_fresh_count s a ha h1
  have hlb : lookupName (s.get_node_id a).2.node_names b = Option.none := by
    rw [hm1, lookupName_cons, if_neg hab]
    exact hb
  have hfree2 : NodeId.UInt ((s.get_node_id a).2.graph.node_count + 1) ∉
      (s.get_node_id a).2.graph.nodes := by
    rw [hc1, hn1]
    intro hmem
    rcases List.mem_append.mp hmem with hh | hh
    · exact h2 hh
    · simp only [List.mem_singleton] at hh
      injection hh with hh2
      omega
  obtain ⟨hc2, _, hm2⟩ :=
    get_node_id_fresh_count (s.get_node_id a).2 b hlb hfree2
  refine ⟨rfl, ?_, ?_⟩
  · have hrfl : (meritrank_delete s a b).2.graph.node_count
        = ((s.get_node_id a).2.get_node_id b).2.graph.node_count := rfl
    rw [hrfl, hc2, hc1]
  · have hrfl : (meritrank_delete s a b).2.node_names
        = ((s.get_node_id a).2.get_node_id b).2.node_names := rfl
    rw [hrfl, hm2, hm1, hc1]

theorem c9_delete_registers_names_witness :
    (meritrank_delete GraphSingleton.new "x" "y").1 = .ok () ∧
    (meritrank_delete GraphSingleton.new "x" "y").2.graph.node_count =
      MyGraph.new.node_count + 2 ∧
    (meritrank_delete GraphSingleton.new "x" "y").2.node_names =
      ("y", NodeId.UInt (MyGraph.new.node_count + 2)) ::
        ("x", NodeId.UInt (MyGraph.new.node_count + 1)) :: [] :=
  c9_delete_registers_names GraphSingleton.new "x" "y" (by decide) rfl rfl
    (List.not_mem_nil _) (List.not_mem_nil _)
